import Mathlib

set_option autoImplicit false

/-!  Verification development for the validation-agent repository.

The definitions below are a shallow embedding of the Python source:
values that flow through the comparator are modelled by an inductive
type of JSON-like Python values, the in-memory and Mongo-backed
repositories by explicit state passing over association lists, and
fallible Python code by Except.  Timestamps and generated identifiers
are supplied as oracle arguments since the source obtains them from
the clock and from uuid4.  -/

/-! ## Python values (src/spike/document_mongodb_tools.py value domain) -/

/-- JSON-like Python value as stored in Mongo documents and produced by
json.loads: strings, ints, bools, None, lists and dicts (dicts modelled
as association lists with unique keys, in insertion order). Floats are
out of the embedding. -/
inductive PyVal where
  | str (s : String)
  | int (n : Int)
  | bool (b : Bool)
  | none
  | list (l : List PyVal)
  | dict (d : List (String × PyVal))

/-- Python type name of a value, as printed in CPython error messages. -/
def pyTypeName : PyVal → String
  | .str _ => "str"
  | .int _ => "int"
  | .bool _ => "bool"
  | .none => "NoneType"
  | .list _ => "list"
  | .dict _ => "dict"

mutual

/-- Python equality (the == operator) on the embedded value domain:
structural on each type, with the numeric identification of bool and
int (True == 1, False == 0) that Python applies because bool is an int
subtype; dicts compare by key set and per-key value equality. -/
def pyEq : PyVal → PyVal → Bool
  | .str a, .str b => a == b
  | .int a, .int b => a == b
  | .bool a, .bool b => a == b
  | .int a, .bool b => a == (if b then (1 : Int) else 0)
  | .bool a, .int b => (if a then (1 : Int) else 0) == b
  | .none, .none => true
  | .list a, .list b => pyEqList a b
  | .dict a, .dict b => a.length == b.length && pyEqEntries a b
  | _, _ => false

/-- Pointwise Python equality of two lists of values. -/
def pyEqList : List PyVal → List PyVal → Bool
  | [], [] => true
  | a :: as_, b :: bs => pyEq a b && pyEqList as_ bs
  | _, _ => false

/-- Every entry of the first dict is present in the second with a
Python-equal value (with unique keys and equal lengths this is Python
dict equality). -/
def pyEqEntries : List (String × PyVal) → List (String × PyVal) → Bool
  | [], _ => true
  | (k, v) :: rest, b =>
    (match b.lookup k with
     | some w => pyEq v w
     | Option.none => false) && pyEqEntries rest b

end

/-- Python dict.get(key, default) on an association-list dict. -/
def pyGetD (d : List (String × PyVal)) (k : String) (dflt : PyVal) : PyVal :=
  (d.lookup k).getD dflt

/-- Whitespace characters stripped by Python str.strip(). -/
def pyIsSpace (c : Char) : Bool :=
  c == ' ' || c == '\t' || c == '\n' || c == '\r' || c == '\x0b' || c == '\x0c'

/-- Python str.strip(): drop leading and trailing whitespace. -/
def pyStrip (s : String) : String :=
  String.mk (((s.toList.dropWhile pyIsSpace).reverse.dropWhile pyIsSpace).reverse)

/-- Python str.lower() restricted to the ASCII range of this data. -/
def pyLower (s : String) : String :=
  String.mk (s.toList.map Char.toLower)

/-! ## Comparator (src/spike/document_mongodb_tools.py, compare_student_data) -/

/-- Equality test the comparator applies to one extracted/stored value
pair: when both are strings they are stripped and lower-cased first,
any other pair is compared by Python equality on the original values. -/
def normEq (cert_value db_value : PyVal) : Bool :=
  match cert_value, db_value with
  | .str a, .str b => pyLower (pyStrip a) == pyLower (pyStrip b)
  | a, b => pyEq a b

/-- One anomaly entry emitted by compare_student_data: the field name,
both original values, and the constant kind tag "mismatch". -/
structure Anomaly where
  field_name : String
  mongodb_value : PyVal
  certificate_value : PyVal
  kind : String

/-- Successful comparison payload of compare_student_data. -/
structure CompareSuccess where
  mongodb_record : List (String × PyVal)
  certificate_data : List (String × PyVal)
  matches_ : List (String × PyVal)
  anomalies : List Anomaly
  additional_info : List (String × PyVal)
  total_anomalies : Nat

/-- Result of compare_student_data: the not-found error dict or the
success dict. -/
inductive CompareResult where
  | error (message : String)
  | success (r : CompareSuccess)

/-- The field-classification loop of compare_student_data: walk the
extracted items in order; a key whose stored value is non-null is
compared with normEq and appended to matches or anomalies, a key whose
stored value is null or absent goes to additional_info. -/
def classifyFields (record : List (String × PyVal)) :
    List (String × PyVal) → List (String × PyVal) × List Anomaly × List (String × PyVal)
  | [] => ([], [], [])
  | (k, v) :: rest =>
    let (ms, ans, ai) := classifyFields record rest
    match pyGetD record k .none with
    | .none => (ms, ans, (k, v) :: ai)
    | dbv =>
      if normEq v dbv then ((k, dbv) :: ms, ans, ai)
      else (ms, ⟨k, dbv, v, "mismatch"⟩ :: ans, ai)

/-- Shallow embedding of compare_student_data: the Mongo student lookup
is passed in as a function, the extracted field map as an association
list. -/
def compare_student_data (get_student_by_id : String → Option (List (String × PyVal)))
    (student_id : String) (extracted_data : List (String × PyVal)) : CompareResult :=
  match get_student_by_id student_id with
  | Option.none => .error ("Student ID " ++ student_id ++ " not found in MongoDB")
  | some record =>
    let r := classifyFields record extracted_data
    .success ⟨record, extracted_data, r.1, r.2.1, r.2.2, r.2.1.length⟩

/-! Spec-side classification (from the spec wording of section 4.6), to
be compared with the loop above. -/

/-- Match entries the spec prescribes for a record and extracted map. -/
def specMatches (record extracted : List (String × PyVal)) : List (String × PyVal) :=
  extracted.filterMap fun kv =>
    match pyGetD record kv.1 .none with
    | .none => Option.none
    | dbv => if normEq kv.2 dbv then some (kv.1, dbv) else Option.none

/-- Anomaly entries the spec prescribes. -/
def specAnomalies (record extracted : List (String × PyVal)) : List Anomaly :=
  extracted.filterMap fun kv =>
    match pyGetD record kv.1 .none with
    | .none => Option.none
    | dbv => if normEq kv.2 dbv then Option.none else some ⟨kv.1, dbv, kv.2, "mismatch"⟩

/-- Additional-info entries the spec prescribes. -/
def specAdditionalInfo (record extracted : List (String × PyVal)) : List (String × PyVal) :=
  extracted.filterMap fun kv =>
    match pyGetD record kv.1 .none with
    | .none => some kv
    | _ => Option.none

theorem classifyFields_eq_spec (record extracted : List (String × PyVal)) :
    classifyFields record extracted =
      (specMatches record extracted, specAnomalies record extracted,
       specAdditionalInfo record extracted) := by
  induction extracted with
  | nil => rfl
  | cons kv rest ih =>
    obtain ⟨k, v⟩ := kv
    simp only [classifyFields, ih, specMatches, specAnomalies, specAdditionalInfo,
      List.filterMap_cons]
    cases h : pyGetD record k .none <;> simp [h] <;>
      first
        | (cases hn : normEq v (PyVal.str _) <;> simp [hn])
        | (cases hn : normEq v (PyVal.int _) <;> simp [hn])
        | (cases hn : normEq v (PyVal.bool _) <;> simp [hn])
        | (cases hn : normEq v (PyVal.list _) <;> simp [hn])
        | (cases hn : normEq v (PyVal.dict _) <;> simp [hn])

/-! ## Python exceptions raised by the api package -/

/-- Error values the embedded api code can raise: built-in TypeError,
AttributeError, ValueError plus the exception classes of
src/api/exceptions.py. -/
inductive PyErr where
  | typeError (msg : String)
  | attributeError (msg : String)
  | valueError (msg : String)
  | invalidUuidFormat (uuid_str : String)
  | enrollmentNotFound (uuid_str : String)
  | processNotFound (process_id : String)
  | serviceError (msg : String)
  | runtime (msg : String)
deriving DecidableEq

/-- Result of str(e) on an embedded exception, following the message
construction in src/api/exceptions.py and CPython built-ins. -/
def errMessage : PyErr → String
  | .typeError m => m
  | .attributeError m => m
  | .valueError m => m
  | .invalidUuidFormat u => "Invalid UUID format: " ++ u ++ ". Expected standard UUID format"
  | .enrollmentNotFound u => "Enrollment UUID " ++ u ++ " not found"
  | .processNotFound p => "Validation process " ++ p ++ " not found"
  | .serviceError m => "Validation service error: " ++ m
  | .runtime m => m

/-! ## Identifier format predicate
(src/api/services.py, EnrollmentValidationService._validate_uuid_format)

The source matches the raw string against the regular expression
[0-9a-f]{8}(-[0-9a-f]{4}){3}-[0-9a-f]{12} anchored on both sides, with
re.IGNORECASE.  The pattern is deterministic (fixed repetition counts),
so it is embedded as a straight-line matcher; the dollar anchor of the
Python re module matches at the end of the string or just before one
trailing newline character. -/

/-- Character class [0-9a-f] under re.IGNORECASE. -/
def isHexDigitCI (c : Char) : Bool :=
  ('0' ≤ c && c ≤ '9') || ('a' ≤ c && c ≤ 'f') || ('A' ≤ c && c ≤ 'F')

/-- Consume exactly n hex characters, returning the remaining input. -/
def takeHex : Nat → List Char → Option (List Char)
  | 0, cs => some cs
  | _ + 1, [] => Option.none
  | n + 1, c :: cs => if isHexDigitCI c then takeHex n cs else Option.none

/-- Consume one hyphen, returning the remaining input. -/
def matchDash : List Char → Option (List Char)
  | [] => Option.none
  | c :: cs => if c = '-' then some cs else Option.none

/-- Consume the 8-4-4-4-12 hyphen-separated hex body of the pattern. -/
def uuidCore (cs : List Char) : Option (List Char) :=
  (takeHex 8 cs).bind fun r1 =>
  (matchDash r1).bind fun r2 =>
  (takeHex 4 r2).bind fun r3 =>
  (matchDash r3).bind fun r4 =>
  (takeHex 4 r4).bind fun r5 =>
  (matchDash r5).bind fun r6 =>
  (takeHex 4 r6).bind fun r7 =>
  (matchDash r7).bind fun r8 =>
  takeHex 12 r8

/-- The full anchored match: the body must consume the whole input, up
to one trailing newline that the dollar anchor tolerates. -/
def reFullMatchUuid (cs : List Char) : Bool :=
  uuidCore cs == some [] || uuidCore cs == some ['\n']

/-- bool(re.match(pattern, s, re.IGNORECASE)) of the source. -/
def uuidAccepts (s : String) : Bool :=
  reFullMatchUuid s.toList

/-- _validate_uuid_format lifted to Option input: re.match on None
raises TypeError, any string input yields the boolean match result. -/
def validate_uuid_format : Option String → Except PyErr Bool
  | Option.none => .error (.typeError "expected string or bytes-like object")
  | some s => .ok (uuidAccepts s)

/-- Spec-side shape (section 4.3 of the spec): five hexadecimal groups
of lengths 8, 4, 4, 4, 12 separated by single hyphens and nothing
else. -/
def SpecUuidGroups (cs : List Char) : Prop :=
  ∃ g1 g2 g3 g4 g5 : List Char,
    g1.length = 8 ∧ g2.length = 4 ∧ g3.length = 4 ∧ g4.length = 4 ∧ g5.length = 12 ∧
    g1.all isHexDigitCI = true ∧ g2.all isHexDigitCI = true ∧ g3.all isHexDigitCI = true ∧
    g4.all isHexDigitCI = true ∧ g5.all isHexDigitCI = true ∧
    cs = g1 ++ '-' :: (g2 ++ '-' :: (g3 ++ '-' :: (g4 ++ '-' :: g5)))

theorem takeHex_eq_some_iff (n : Nat) (cs rest : List Char) :
    takeHex n cs = some rest ↔
      ∃ pre : List Char, cs = pre ++ rest ∧ pre.length = n ∧ pre.all isHexDigitCI = true := by
  induction n generalizing cs with
  | zero =>
    simp only [takeHex, Option.some.injEq]
    constructor
    · rintro rfl
      exact ⟨[], rfl, rfl, rfl⟩
    · rintro ⟨pre, hcs, hlen, _⟩
      rw [List.length_eq_zero] at hlen
      subst hlen
      simpa using hcs
  | succ n ih =>
    cases cs with
    | nil =>
      constructor
      · intro h
        simp [takeHex] at h
      · rintro ⟨pre, hcs, hlen, _⟩
        have h0 := congrArg List.length hcs
        simp [List.length_append, hlen] at h0
        exact absurd h0 (by omega)
    | cons c cs =>
      by_cases hc : isHexDigitCI c = true
      · constructor
        · intro h
          simp only [takeHex, if_pos hc] at h
          obtain ⟨pre, h1, h2, h3⟩ := (ih cs).mp h
          exact ⟨c :: pre, by simp [h1], by simp [h2], by simp [List.all_cons, hc, h3]⟩
        · rintro ⟨pre, hcs, hlen, hall⟩
          cases pre with
          | nil => simp at hlen
          | cons p ps =>
            simp only [List.cons_append, List.cons.injEq] at hcs
            obtain ⟨rfl, hcs2⟩ := hcs
            simp only [List.all_cons, Bool.and_eq_true] at hall
            simp only [takeHex, if_pos hc]
            exact (ih cs).mpr ⟨ps, hcs2, by simpa using hlen, hall.2⟩
      · constructor
        · intro h
          simp [takeHex, hc] at h
        · rintro ⟨pre, hcs, hlen, hall⟩
          cases pre with
          | nil => simp at hlen
          | cons p ps =>
            simp only [List.cons_append, List.cons.injEq] at hcs
            obtain ⟨rfl, _⟩ := hcs
            simp only [List.all_cons, Bool.and_eq_true] at hall
            exact absurd hall.1 hc

theorem takeHex_of_hex_block (n : Nat) (pre t : List Char) (h1 : pre.length = n)
    (h2 : pre.all isHexDigitCI = true) : takeHex n (pre ++ t) = some t :=
  (takeHex_eq_some_iff n (pre ++ t) t).mpr ⟨pre, rfl, h1, h2⟩

theorem matchDash_eq_some_iff (cs rest : List Char) :
    matchDash cs = some rest ↔ cs = '-' :: rest := by
  cases cs with
  | nil => simp [matchDash]
  | cons c cs =>
    by_cases hc : c = '-'
    · subst hc
      simp [matchDash]
    · simp [matchDash, hc]

theorem matchDash_dash (t : List Char) : matchDash ('-' :: t) = some t := by
  simp [matchDash]

theorem uuidCore_eq_some_iff (cs rest : List Char) :
    uuidCore cs = some rest ↔
      ∃ g1 g2 g3 g4 g5 : List Char,
        g1.length = 8 ∧ g2.length = 4 ∧ g3.length = 4 ∧ g4.length = 4 ∧ g5.length = 12 ∧
        g1.all isHexDigitCI = true ∧ g2.all isHexDigitCI = true ∧ g3.all isHexDigitCI = true ∧
        g4.all isHexDigitCI = true ∧ g5.all isHexDigitCI = true ∧
        cs = g1 ++ '-' :: (g2 ++ '-' :: (g3 ++ '-' :: (g4 ++ '-' :: (g5 ++ rest)))) := by
  constructor
  · intro h
    unfold uuidCore at h
    obtain ⟨r1, h1, h⟩ := Option.bind_eq_some.mp h
    obtain ⟨r2, h2, h⟩ := Option.bind_eq_some.mp h
    obtain ⟨r3, h3, h⟩ := Option.bind_eq_some.mp h
    obtain ⟨r4, h4, h⟩ := Option.bind_eq_some.mp h
    obtain ⟨r5, h5, h⟩ := Option.bind_eq_some.mp h
    obtain ⟨r6, h6, h⟩ := Option.bind_eq_some.mp h
    obtain ⟨r7, h7, h⟩ := Option.bind_eq_some.mp h
    obtain ⟨r8, h8, h⟩ := Option.bind_eq_some.mp h
    obtain ⟨g1, e1, l1, a1⟩ := (takeHex_eq_some_iff 8 cs r1).mp h1
    rw [matchDash_eq_some_iff] at h2
    obtain ⟨g2, e2, l2, a2⟩ := (takeHex_eq_some_iff 4 r2 r3).mp h3
    rw [matchDash_eq_some_iff] at h4
    obtain ⟨g3, e3, l3, a3⟩ := (takeHex_eq_some_iff 4 r4 r5).mp h5
    rw [matchDash_eq_some_iff] at h6
    obtain ⟨g4, e4, l4, a4⟩ := (takeHex_eq_some_iff 4 r6 r7).mp h7
    rw [matchDash_eq_some_iff] at h8
    obtain ⟨g5, e5, l5, a5⟩ := (takeHex_eq_some_iff 12 r8 rest).mp h
    subst e5 h8 e4 h6 e3 h4 e2 h2 e1
    exact ⟨g1, g2, g3, g4, g5, l1, l2, l3, l4, l5, a1, a2, a3, a4, a5, rfl⟩
  · rintro ⟨g1, g2, g3, g4, g5, l1, l2, l3, l4, l5, a1, a2, a3, a4, a5, rfl⟩
    unfold uuidCore
    rw [takeHex_of_hex_block 8 g1 _ l1 a1]
    simp only [Option.some_bind]
    rw [matchDash_dash]
    simp only [Option.some_bind]
    rw [takeHex_of_hex_block 4 g2 _ l2 a2]
    simp only [Option.some_bind]
    rw [matchDash_dash]
    simp only [Option.some_bind]
    rw [takeHex_of_hex_block 4 g3 _ l3 a3]
    simp only [Option.some_bind]
    rw [matchDash_dash]
    simp only [Option.some_bind]
    rw [takeHex_of_hex_block 4 g4 _ l4 a4]
    simp only [Option.some_bind]
    rw [matchDash_dash]
    simp only [Option.some_bind]
    exact takeHex_of_hex_block 12 g5 rest l5 a5

theorem reFullMatchUuid_iff (cs : List Char) :
    reFullMatchUuid cs = true ↔
      SpecUuidGroups cs ∨ ∃ t : List Char, SpecUuidGroups t ∧ cs = t ++ ['\n'] := by
  unfold reFullMatchUuid
  rw [Bool.or_eq_true, beq_iff_eq, beq_iff_eq]
  constructor
  · rintro (h | h)
    · left
      obtain ⟨g1, g2, g3, g4, g5, l1, l2, l3, l4, l5, a1, a2, a3, a4, a5, hcs⟩ :=
        (uuidCore_eq_some_iff cs []).mp h
      exact ⟨g1, g2, g3, g4, g5, l1, l2, l3, l4, l5, a1, a2, a3, a4, a5, by simpa using hcs⟩
    · right
      obtain ⟨g1, g2, g3, g4, g5, l1, l2, l3, l4, l5, a1, a2, a3, a4, a5, hcs⟩ :=
        (uuidCore_eq_some_iff cs ['\n']).mp h
      refine ⟨g1 ++ '-' :: (g2 ++ '-' :: (g3 ++ '-' :: (g4 ++ '-' :: g5))),
        ⟨g1, g2, g3, g4, g5, l1, l2, l3, l4, l5, a1, a2, a3, a4, a5, rfl⟩, ?_⟩
      simpa [List.append_assoc] using hcs
  · rintro (⟨g1, g2, g3, g4, g5, l1, l2, l3, l4, l5, a1, a2, a3, a4, a5, hcs⟩ |
      ⟨t, ⟨g1, g2, g3, g4, g5, l1, l2, l3, l4, l5, a1, a2, a3, a4, a5, ht⟩, hcs⟩)
    · left
      exact (uuidCore_eq_some_iff cs []).mpr
        ⟨g1, g2, g3, g4, g5, l1, l2, l3, l4, l5, a1, a2, a3, a4, a5, by simpa using hcs⟩
    · right
      refine (uuidCore_eq_some_iff cs ['\n']).mpr
        ⟨g1, g2, g3, g4, g5, l1, l2, l3, l4, l5, a1, a2, a3, a4, a5, ?_⟩
      subst ht
      simpa [List.append_assoc] using hcs

theorem specUuidGroups_length {cs : List Char} (h : SpecUuidGroups cs) : cs.length = 36 := by
  obtain ⟨g1, g2, g3, g4, g5, l1, l2, l3, l4, l5, _, _, _, _, _, rfl⟩ := h
  simp [List.length_append, List.length_cons, l1, l2, l3, l4, l5]

/-- A valid 36-character identifier followed by one newline: 37
characters, not of the 8-4-4-4-12 shape. -/
def c1BadInput : String := "00000000-0000-0000-0000-000000000000\n"

/-- Claim C1 counterexample: the identifier-format predicate of
_validate_uuid_format accepts the 37-character string consisting of a
valid identifier plus a trailing newline, although that string is not
of the 8-4-4-4-12 hexadecimal shape (it is not even 36 characters
long), because the dollar anchor of the Python re module matches just
before one trailing newline.  This refutes the claim that every string
with trailing characters after a valid 36-character body is
rejected. -/
theorem c1_counterexample :
    uuidAccepts c1BadInput = true ∧ c1BadInput.toList.length = 37 ∧
      ¬ SpecUuidGroups c1BadInput.toList := by
  refine ⟨by decide, by decide, fun h => ?_⟩
  have h36 := specUuidGroups_length h
  have h37 : c1BadInput.toList.length = 37 := by decide
  omega

/-- Claim C1 (amended): the identifier-format predicate accepts exactly
the strings made of 8-4-4-4-12 case-insensitive hexadecimal groups
separated by hyphens, optionally followed by one single trailing
newline character (which the dollar anchor of the Python re module
tolerates); every other string is rejected, and a missing (None) input
is rejected with a TypeError, a distinct error kind from a format
mismatch. -/
theorem c1_identifier_format_amended :
    (∀ s : String, uuidAccepts s = true ↔
        SpecUuidGroups s.toList ∨ ∃ t : List Char, SpecUuidGroups t ∧ s.toList = t ++ ['\n'])
    ∧ validate_uuid_format Option.none =
        Except.error (PyErr.typeError "expected string or bytes-like object")
    ∧ ∀ s : String, validate_uuid_format (some s) = Except.ok (uuidAccepts s) :=
  ⟨fun s => reFullMatchUuid_iff s.toList, rfl, fun _ => rfl⟩

/-- Concrete instantiation of the amended C1 theorem on the example
identifier from the repository documentation. -/
theorem c1_identifier_format_amended_witness :
    SpecUuidGroups ("387ec43c-6280-11f0-9d8d-4b43610f4997".toList) ∨
      ∃ t : List Char, SpecUuidGroups t ∧
        "387ec43c-6280-11f0-9d8d-4b43610f4997".toList = t ++ ['\n'] :=
  (c1_identifier_format_amended.1 "387ec43c-6280-11f0-9d8d-4b43610f4997").mp (by decide)

/-! ## Validation process model (src/api/models.py) -/

/-- Process status enumeration. -/
inductive ValidationStatus where
  | pending
  | in_progress
  | completed
  | failed
deriving DecidableEq

/-- The string value of each status member. -/
def ValidationStatus.value : ValidationStatus → String
  | .pending => "pending"
  | .in_progress => "in_progress"
  | .completed => "completed"
  | .failed => "failed"

/-- ValidationStatus(s): parse a stored string back into the
enumeration; Option.none models the ValueError of an unknown value. -/
def statusOfString (s : String) : Option ValidationStatus :=
  if s = "pending" then some .pending
  else if s = "in_progress" then some .in_progress
  else if s = "completed" then some .completed
  else if s = "failed" then some .failed
  else Option.none

/-- ValidationProcess of src/api/models.py; datetimes are abstract Nat
ticks and result_data is a Python dict. -/
structure ValidationProcess where
  process_id : String
  uuid_str : String
  email : Option String
  status : ValidationStatus
  created_at : Nat
  updated_at : Option Nat
  error_message : Option String
  result_data : Option (List (String × PyVal))

/-- Store a binding under a key: replace the existing binding in place,
or append a new one, as Python dict assignment and Mongo update_one
do. -/
def setEntry {α : Type} : List (String × α) → String → α → List (String × α)
  | [], k, v => [(k, v)]
  | (k0, v0) :: rest, k, v =>
    if k0 = k then (k, v) :: rest else (k0, v0) :: setEntry rest k v

theorem lookup_setEntry_self {α : Type} (st : List (String × α)) (k : String) (v : α) :
    (setEntry st k v).lookup k = some v := by
  induction st with
  | nil => simp [setEntry, List.lookup]
  | cons kv rest ih =>
    obtain ⟨k0, v0⟩ := kv
    by_cases h : k0 = k
    · subst h
      simp [setEntry, List.lookup]
    · have hne : (k == k0) = false := by
        simp only [beq_eq_false_iff_ne]
        exact fun hh => h hh.symm
      simp [setEntry, h, List.lookup, hne, ih]

theorem lookup_setEntry_ne {α : Type} (st : List (String × α)) (k k2 : String) (v : α)
    (h : k2 ≠ k) : (setEntry st k v).lookup k2 = st.lookup k2 := by
  have hne : (k2 == k) = false := by
    simp only [beq_eq_false_iff_ne]
    exact h
  induction st with
  | nil => simp [setEntry, List.lookup, hne]
  | cons kv rest ih =>
    obtain ⟨k0, v0⟩ := kv
    by_cases h0 : k0 = k
    · subst h0
      simp [setEntry, List.lookup, hne]
    · simp [setEntry, h0, List.lookup, ih]

/-! ## In-memory process repository
(src/api/repositories.py, InMemoryValidationProcessRepository) -/

/-- The _processes dict: process id to stored process. -/
abbrev RepoState := List (String × ValidationProcess)

namespace InMemoryValidationProcessRepository

/-- create: build a fresh pending process (generated id and clock value
passed as oracles), store and return it. -/
def create (st : RepoState) (uuid_str : String) (email : Option String)
    (process_id : String) (now : Nat) : RepoState × ValidationProcess :=
  let process : ValidationProcess :=
    ⟨process_id, uuid_str, email, .pending, now, Option.none, Option.none, Option.none⟩
  (setEntry st process_id process, process)

/-- get_by_id: dictionary lookup. -/
def get_by_id (st : RepoState) (process_id : String) : Option ValidationProcess :=
  st.lookup process_id

/-- update_status: fail with ProcessNotFound on an unknown id,
otherwise rebuild the snapshot with the supplied status, error message
and result payload (None when the caller omitted them), a fresh
updated_at, and the identity fields copied over; store and return
it. -/
def update_status (st : RepoState) (process_id : String) (status : ValidationStatus)
    (error_message : Option String) (result_data : Option (List (String × PyVal)))
    (now : Nat) : Except PyErr (RepoState × ValidationProcess) :=
  match get_by_id st process_id with
  | Option.none => .error (.processNotFound process_id)
  | some process =>
    let updated_process : ValidationProcess :=
      ⟨process.process_id, process.uuid_str, process.email, status,
        process.created_at, some now, error_message, result_data⟩
    .ok (setEntry st process_id updated_process, updated_process)

end InMemoryValidationProcessRepository

/-! ## Mongo process repository
(src/api/repositories.py, MongoValidationProcessRepository)
The validation_processes collection is modelled as a key-value map
from process_id to the stored document. -/

/-- The conditional merge the Mongo update applies to an optional
field: a non-None argument replaces the stored value, a None argument
keeps it. -/
def keepIfNone {α : Type} (new old : Option α) : Option α :=
  match new with
  | some x => some x
  | Option.none => old

/-- Stored document shape: exactly the fields create inserts; status is
kept as its string value as in the database. -/
structure MongoProcDoc where
  process_id : String
  uuid_str : String
  email : Option String
  status : String
  created_at : Nat
  updated_at : Option Nat
  error_message : Option String
  result_data : Option (List (String × PyVal))

/-- The validation_processes collection keyed by process_id. -/
abbrev MongoState := List (String × MongoProcDoc)

/-- Rebuild a ValidationProcess from a stored document; Option.none
models the ValueError on an unknown status string. -/
def docToProcess (d : MongoProcDoc) : Option ValidationProcess :=
  (statusOfString d.status).map fun s =>
    ⟨d.process_id, d.uuid_str, d.email, s, d.created_at, d.updated_at,
      d.error_message, d.result_data⟩

namespace MongoValidationProcessRepository

/-- create: build the pending process, insert its field dict into the
collection, return the process object. -/
def create (st : MongoState) (uuid_str : String) (email : Option String)
    (process_id : String) (now : Nat) : MongoState × ValidationProcess :=
  let process : ValidationProcess :=
    ⟨process_id, uuid_str, email, .pending, now, Option.none, Option.none, Option.none⟩
  let doc : MongoProcDoc :=
    ⟨process.process_id, process.uuid_str, process.email, process.status.value,
      process.created_at, process.updated_at, process.error_message, process.result_data⟩
  (st ++ [(process_id, doc)], process)

/-- get_by_id: find_one then rebuild; any exception (including the
ValueError of a bad status string) is swallowed into None. -/
def get_by_id (st : MongoState) (process_id : String) : Option ValidationProcess :=
  (st.lookup process_id).bind docToProcess

/-- update_status: fail with ProcessNotFound on an unknown id;
otherwise apply a field-wise update that always sets status and
updated_at but only sets error_message and result_data when the
argument is not None (otherwise the previously stored value is kept),
then re-read and return the updated document. -/
def update_status (st : MongoState) (process_id : String) (status : ValidationStatus)
    (error_message : Option String) (result_data : Option (List (String × PyVal)))
    (now : Nat) : Except PyErr (MongoState × ValidationProcess) :=
  match st.lookup process_id with
  | Option.none => .error (.processNotFound process_id)
  | some d =>
    let d2 : MongoProcDoc :=
      ⟨d.process_id, d.uuid_str, d.email, status.value, d.created_at, some now,
        keepIfNone error_message d.error_message, keepIfNone result_data d.result_data⟩
    let st2 := setEntry st process_id d2
    match docToProcess d2 with
    | some p => .ok (st2, p)
    | Option.none => .error (.valueError (d2.status ++ " is not a valid ValidationStatus"))

end MongoValidationProcessRepository

/-! ## Orchestrator (src/api/services.py, EnrollmentValidationService)
The enrollment repository swallows every backend error into None, so
it is modelled as a pure lookup function; generated process ids and
clock readings are oracle arguments. -/

/-- Raw enrollment document as returned by the enrollment repository. -/
abbrev EnrollmentDoc := List (String × PyVal)

/-- Python truthiness filter applied by the two occurrences of
"if not enrollment_data": None and the empty dict are both falsy. -/
def truthyDoc : Option EnrollmentDoc → Option EnrollmentDoc
  | Option.none => Option.none
  | some d => if d.isEmpty then Option.none else some d

/-- Pydantic checking of the email value against Optional[str] when
the ValidationProcess model is instantiated inside create: a string or
None passes, any other type raises a validation error. -/
def extractEmail : PyVal → Except PyErr (Option String)
  | .str s => .ok (some s)
  | .none => .ok Option.none
  | _ => .error (.valueError "1 validation error for ValidationProcess")

/-- Observable repository accesses of initiate_validation, recorded in
call order. -/
inductive RepoCall where
  | enrollGet (uuid_str : String)
  | procCreate (uuid_str : String)
deriving DecidableEq

/-- Everything initiate_validation produces: the process store after
the call, the returned process or raised exception, the repository
calls it made, and the process id it scheduled background work for. -/
structure InitiateResult where
  state : RepoState
  outcome : Except PyErr ValidationProcess
  repo_calls : List RepoCall
  scheduled : Option String

/-- initiate_validation: validate the identifier format (None raises
TypeError, a mismatch raises InvalidUuidFormatError), look up the
enrollment (falsy result raises EnrollmentNotFoundError), extract the
email, create the pending process and schedule background validation
for its id, returning the pending snapshot. -/
def initiate_validation (enroll : String → Option EnrollmentDoc) (st : RepoState)
    (uuid_str : Option String) (new_pid : String) (now : Nat) : InitiateResult :=
  match uuid_str with
  | Option.none => ⟨st, .error (.typeError "expected string or bytes-like object"), [], Option.none⟩
  | some u =>
    if uuidAccepts u = false then ⟨st, .error (.invalidUuidFormat u), [], Option.none⟩
    else
      match truthyDoc (enroll u) with
      | Option.none => ⟨st, .error (.enrollmentNotFound u), [.enrollGet u], Option.none⟩
      | some d =>
        match extractEmail (pyGetD d "email" .none) with
        | .error e =>
          ⟨st, .error (.serviceError ("Failed to initiate validation: " ++ errMessage e)),
            [.enrollGet u, .procCreate u], Option.none⟩
        | .ok email =>
          let r := InMemoryValidationProcessRepository.create st u email new_pid now
          ⟨r.1, .ok r.2, [.enrollGet u, .procCreate u], some new_pid⟩

/-- get_validation_status: pure read-through. -/
def get_validation_status (st : RepoState) (process_id : String) : Option ValidationProcess :=
  InMemoryValidationProcessRepository.get_by_id st process_id

/-- len() on a Python value, with the CPython TypeError otherwise. -/
def pyLen : PyVal → Except PyErr Int
  | .str s => .ok s.length
  | .list l => .ok l.length
  | .dict d => .ok d.length
  | v => .error (.typeError ("object of type '" ++ pyTypeName v ++ "' has no len()"))

/-- The .get(key, default) method call on a Python value: only dicts
have it, any other receiver raises AttributeError. -/
def pyDictGetMethod (v : PyVal) (k : String) (dflt : PyVal) : Except PyErr PyVal :=
  match v with
  | .dict d => .ok (pyGetD d k dflt)
  | _ => .error (.attributeError ("'" ++ pyTypeName v ++ "' object has no attribute 'get'"))

/-- Abstract rendering of datetime.isoformat on the tick model of
time. -/
def isoTimestamp (t : Nat) : String := toString t

/-- The result_data dict assembled in _perform_validation for the
completed transition, with the len() and .get() calls it performs on
the enrollment document (each can raise). -/
def assemble_result (uuid_str : String) (ed : EnrollmentDoc) (tv : Nat) :
    Except PyErr (List (String × PyVal)) :=
  match pyLen (pyGetD ed "students_info" (.list [])) with
  | .error e => .error e
  | .ok cnt =>
    match pyDictGetMethod (pyGetD ed "verification" (.dict [])) "verified" (.bool false) with
    | .error e => .error e
    | .ok ver =>
      .ok [("enrollment_validated", .bool true),
           ("enrollment_uuid", .str uuid_str),
           ("email", pyGetD ed "email" .none),
           ("phone", pyGetD ed "phone" .none),
           ("students_count", .int cnt),
           ("verification_status", ver),
           ("validation_timestamp", .str (isoTimestamp tv)),
           ("validation_notes", .str "Basic enrollment record validation completed")]

/-- The except clause of _perform_validation: try to mark the process
failed with the message of the caught exception; if that update itself
raises, the new exception escapes the background task with the store
unchanged. -/
def handleExcept (st : RepoState) (process_id : String) (e : PyErr) (t3 : Nat) :
    RepoState × Option PyErr :=
  match InMemoryValidationProcessRepository.update_status st process_id .failed
      (some (errMessage e)) Option.none t3 with
  | .error e2 => (st, some e2)
  | .ok r => (r.1, Option.none)

/-- _perform_validation over the in-memory repository: mark the process
in progress, re-fetch it (silent return when absent), re-fetch the
enrollment (falsy result marks the process failed), then do the
simulated work — inj injects an arbitrary exception message there,
standing for any exception raised during it — assemble the result
payload and mark the process completed.  Every exception raised in the
body is diverted to handleExcept.  The second component reports an
exception escaping the whole step. -/
def perform_validation (st : RepoState) (process_id : String)
    (enroll : String → Option EnrollmentDoc) (inj : Option String)
    (t1 t2 t3 tv : Nat) : RepoState × Option PyErr :=
  match InMemoryValidationProcessRepository.update_status st process_id .in_progress
      Option.none Option.none t1 with
  | .error e => handleExcept st process_id e t3
  | .ok r1 =>
    match InMemoryValidationProcessRepository.get_by_id r1.1 process_id with
    | Option.none => (r1.1, Option.none)
    | some process =>
      match truthyDoc (enroll process.uuid_str) with
      | Option.none =>
        (match InMemoryValidationProcessRepository.update_status r1.1 process_id .failed
            (some "Enrollment not found during validation") Option.none t2 with
         | .error e => handleExcept r1.1 process_id e t3
         | .ok r2 => (r2.1, Option.none))
      | some ed =>
        match inj with
        | some m => handleExcept r1.1 process_id (.runtime m) t3
        | Option.none =>
          match assemble_result process.uuid_str ed tv with
          | .error e => handleExcept r1.1 process_id e t3
          | .ok rd =>
            match InMemoryValidationProcessRepository.update_status r1.1 process_id .completed
                Option.none (some rd) t2 with
            | .error e => handleExcept r1.1 process_id e t3
            | .ok r2 => (r2.1, Option.none)

/-! ## Backend selector
(src/api/services.py, ValidationServiceFactory and the lifespan
startup in src/api/main.py).  Repository constructors are modelled as
oracles that either succeed or throw. -/

/-- Which process-store backend the built service uses. -/
inductive ProcBackend where
  | durable
  | inMemory
deriving DecidableEq

/-- Wiring of a built service: the enrollment side is always the
durable Mongo repository. -/
structure ServiceConfig where
  enroll_durable : Bool
  proc_backend : ProcBackend
deriving DecidableEq

/-- create_mongo_service: construct the Mongo enrollment repository,
then the Mongo process repository, and wire both. -/
def create_mongo_service (enrollCtor procCtor : Except String Unit) :
    Except String ServiceConfig :=
  match enrollCtor with
  | .error e => .error e
  | .ok _ =>
    match procCtor with
    | .error e => .error e
    | .ok _ => .ok ⟨true, .durable⟩

/-- create_hybrid_service: construct the Mongo enrollment repository
and the in-memory process repository (whose constructor cannot
throw). -/
def create_hybrid_service (enrollCtor : Except String Unit) : Except String ServiceConfig :=
  match enrollCtor with
  | .error e => .error e
  | .ok _ => .ok ⟨true, .inMemory⟩

/-- The lifespan startup of src/api/main.py: try the Mongo-backed
service, on any exception fall back to the hybrid service, and if the
fallback also throws raise a fatal RuntimeError. -/
def lifespan_init (enrollCtor procCtor : Except String Unit) : Except String ServiceConfig :=
  match create_mongo_service enrollCtor procCtor with
  | .ok s => .ok s
  | .error _ =>
    match create_hybrid_service enrollCtor with
    | .ok s => .ok s
    | .error _ => .error "Unable to initialize any validation service backend"

/-! ## Claim theorems -/

/-- The transition relation of section 4.1 of the spec: strictly
forward, terminal states absorbing, no direct Pending to terminal
step. -/
def allowedTransition : ValidationStatus → ValidationStatus → Bool
  | .pending, .in_progress => true
  | .in_progress, .completed => true
  | .in_progress, .failed => true
  | _, _ => false

/-- A process already stored in the completed state, used to exercise
update_status on a terminal process. -/
def procCompletedW : ValidationProcess :=
  ⟨"p1", "u1", Option.none, .completed, 0, some 1, Option.none, some []⟩

/-- Claim C3 counterexample: update_status applies no transition rule
at all — called with Pending on a process whose stored status is the
terminal Completed, it succeeds and stores Pending, a transition that
leaves a terminal state and revisits Pending, which section 4.1
forbids. -/
theorem c3_counterexample :
    (∃ st2 q, InMemoryValidationProcessRepository.update_status
        [("p1", procCompletedW)] "p1" .pending Option.none Option.none 2 = .ok (st2, q)
      ∧ q.status = .pending ∧ st2.lookup "p1" = some q)
    ∧ allowedTransition .completed .pending = false := by
  exact ⟨⟨_, _, rfl, rfl, rfl⟩, rfl⟩

theorem statusOfString_value (s : ValidationStatus) : statusOfString s.value = some s := by
  cases s <;> rfl

/-- Claim C3 (amended): on either backend, update_status fails with
ProcessNotFound on an unknown process identifier, and otherwise
persists exactly the status supplied by the caller, without checking
the transition rules of section 4.1 — any status can follow any
status; the forward-only discipline is kept only because the
orchestrator is the sole caller. -/
theorem c3_update_status_amended :
    (∀ (st : RepoState) (pid : String) (status : ValidationStatus)
        (err : Option String) (rd : Option (List (String × PyVal))) (now : Nat),
      (st.lookup pid = Option.none →
        InMemoryValidationProcessRepository.update_status st pid status err rd now =
          .error (.processNotFound pid))
      ∧ ∀ p, st.lookup pid = some p →
          ∃ st2 q, InMemoryValidationProcessRepository.update_status st pid status err rd now =
              .ok (st2, q) ∧ q.status = status ∧ st2.lookup pid = some q)
    ∧ ∀ (st : MongoState) (pid : String) (status : ValidationStatus)
        (err : Option String) (rd : Option (List (String × PyVal))) (now : Nat),
      (st.lookup pid = Option.none →
        MongoValidationProcessRepository.update_status st pid status err rd now =
          .error (.processNotFound pid))
      ∧ ∀ d, st.lookup pid = some d →
          ∃ st2 q, MongoValidationProcessRepository.update_status st pid status err rd now =
              .ok (st2, q) ∧ q.status = status
            ∧ ∃ d2, st2.lookup pid = some d2 ∧ statusOfString d2.status = some status := by
  constructor
  · intro st pid status err rd now
    constructor
    · intro h
      unfold InMemoryValidationProcessRepository.update_status
        InMemoryValidationProcessRepository.get_by_id
      rw [h]
    · intro p hp
      have heq : InMemoryValidationProcessRepository.update_status st pid status err rd now =
          .ok (setEntry st pid
                ⟨p.process_id, p.uuid_str, p.email, status, p.created_at, some now, err, rd⟩,
              ⟨p.process_id, p.uuid_str, p.email, status, p.created_at, some now, err, rd⟩) := by
        unfold InMemoryValidationProcessRepository.update_status
          InMemoryValidationProcessRepository.get_by_id
        rw [hp]
      exact ⟨_, _, heq, rfl, lookup_setEntry_self st pid _⟩
  · intro st pid status err rd now
    constructor
    · intro h
      unfold MongoValidationProcessRepository.update_status
      rw [h]
    · intro d hd
      have heq : MongoValidationProcessRepository.update_status st pid status err rd now =
          .ok (setEntry st pid
                ⟨d.process_id, d.uuid_str, d.email, status.value, d.created_at, some now,
                  keepIfNone err d.error_message, keepIfNone rd d.result_data⟩,
              ⟨d.process_id, d.uuid_str, d.email, status, d.created_at, some now,
                  keepIfNone err d.error_message, keepIfNone rd d.result_data⟩) := by
        unfold MongoValidationProcessRepository.update_status
        rw [hd]
        simp [docToProcess, statusOfString_value]
      exact ⟨_, _, heq, rfl, _, lookup_setEntry_self st pid _, statusOfString_value status⟩

/-- Concrete instantiation of the amended C3 theorem: a stored pending
process updated to failed, and the ProcessNotFound failure on an empty
store. -/
theorem c3_update_status_amended_witness :
    (∃ st2 q, InMemoryValidationProcessRepository.update_status
        [("p1", procCompletedW)] "p1" .failed (some "boom") Option.none 7 = .ok (st2, q)
      ∧ q.status = .failed ∧ st2.lookup "p1" = some q)
    ∧ InMemoryValidationProcessRepository.update_status [] "p2" .completed
        Option.none Option.none 7 = .error (.processNotFound "p2") :=
  ⟨(c3_update_status_amended.1 [("p1", procCompletedW)] "p1" .failed (some "boom")
      Option.none 7).2 procCompletedW rfl,
   (c3_update_status_amended.1 [] "p2" .completed Option.none Option.none 7).1 rfl⟩

/-- Claim C7: for every string failing the identifier-format predicate,
initiate_validation raises InvalidUuidFormatError, performs no
repository call at all (the recorded call list is empty), leaves the
process store unchanged and schedules nothing. -/
theorem c7_malformed_rejected_before_repo (enroll : String → Option EnrollmentDoc)
    (st : RepoState) (u new_pid : String) (now : Nat) (h : uuidAccepts u = false) :
    initiate_validation enroll st (some u) new_pid now =
      ⟨st, .error (.invalidUuidFormat u), [], Option.none⟩ := by
  simp [initiate_validation, h]

/-- Concrete instantiation of C7 on a malformed identifier, against a
record repository that would answer if it were consulted. -/
theorem c7_malformed_rejected_before_repo_witness :
    initiate_validation (fun _ => some [("email", PyVal.str "a@b")]) [] (some "not-a-uuid")
        "p1" 0 =
      ⟨[], .error (.invalidUuidFormat "not-a-uuid"), [], Option.none⟩ :=
  c7_malformed_rejected_before_repo (fun _ => some [("email", PyVal.str "a@b")]) []
    "not-a-uuid" "p1" 0 (by decide)

/-- Claim C6: for every identifier accepted by the format predicate for
which the enrollment repository returns absent, initiate_validation
raises EnrollmentNotFoundError, records exactly one enrollment lookup
and no process-repository create, leaves the process store unchanged
and schedules nothing. -/
theorem c6_subject_not_found_creates_nothing (enroll : String → Option EnrollmentDoc)
    (st : RepoState) (u new_pid : String) (now : Nat)
    (hv : uuidAccepts u = true) (habs : enroll u = Option.none) :
    initiate_validation enroll st (some u) new_pid now =
      ⟨st, .error (.enrollmentNotFound u), [.enrollGet u], Option.none⟩ := by
  simp [initiate_validation, hv, truthyDoc, habs]

/-- Concrete instantiation of C6 on a well-formed identifier unknown to
the record repository. -/
theorem c6_subject_not_found_creates_nothing_witness :
    initiate_validation (fun _ => Option.none) [] (some "387ec43c-6280-11f0-9d8d-4b43610f4997")
        "p1" 0 =
      ⟨[], .error (.enrollmentNotFound "387ec43c-6280-11f0-9d8d-4b43610f4997"),
        [.enrollGet "387ec43c-6280-11f0-9d8d-4b43610f4997"], Option.none⟩ :=
  c6_subject_not_found_creates_nothing (fun _ => Option.none) []
    "387ec43c-6280-11f0-9d8d-4b43610f4997" "p1" 0 (by decide) rfl

/-- Claim C8: the startup selector first builds the service on the
durable process backend; when that construction throws it builds the
fallback on the in-memory process backend while still constructing the
durable enrollment repository; when the enrollment-repository
construction throws as well (so the fallback also fails) startup fails
fatally with a RuntimeError, with no third tier. -/
theorem c8_backend_selector_policy (enrollCtor procCtor : Except String Unit) :
    (enrollCtor = .ok () → procCtor = .ok () →
        lifespan_init enrollCtor procCtor = .ok ⟨true, .durable⟩)
    ∧ (∀ e, enrollCtor = .ok () → procCtor = .error e →
        lifespan_init enrollCtor procCtor = .ok ⟨true, .inMemory⟩)
    ∧ (∀ e, enrollCtor = .error e →
        lifespan_init enrollCtor procCtor =
          .error "Unable to initialize any validation service backend") := by
  refine ⟨?_, ?_, ?_⟩
  · rintro rfl rfl
    rfl
  · rintro e rfl rfl
    rfl
  · rintro e rfl
    rfl

/-- Concrete instantiation of C8: the durable process backend throws,
the fallback succeeds on the in-memory backend. -/
theorem c8_backend_selector_policy_witness :
    lifespan_init (.ok ()) (.error "mongo down") = .ok ⟨true, .inMemory⟩ :=
  (c8_backend_selector_policy (.ok ()) (.error "mongo down")).2.1 "mongo down" rfl rfl

/-- Claim C10: an in-memory update_status call on a stored process
succeeds, and the stored and returned snapshot keeps process_id,
uuid_str, email and created_at from the previous snapshot while status,
updated_at, error_message and result_data are exactly the supplied
arguments (None when omitted); every other stored process is
untouched. -/
theorem c10_update_status_replaces_payload (st : RepoState) (pid : String)
    (status : ValidationStatus) (err : Option String)
    (rd : Option (List (String × PyVal))) (now : Nat)
    (p : ValidationProcess) (h : st.lookup pid = some p) :
    ∃ st2 q, InMemoryValidationProcessRepository.update_status st pid status err rd now =
        .ok (st2, q)
      ∧ q.process_id = p.process_id ∧ q.uuid_str = p.uuid_str ∧ q.email = p.email
      ∧ q.created_at = p.created_at ∧ q.status = status ∧ q.updated_at = some now
      ∧ q.error_message = err ∧ q.result_data = rd
      ∧ st2.lookup pid = some q
      ∧ ∀ pid2, pid2 ≠ pid → st2.lookup pid2 = st.lookup pid2 := by
  have heq : InMemoryValidationProcessRepository.update_status st pid status err rd now =
      .ok (setEntry st pid
            ⟨p.process_id, p.uuid_str, p.email, status, p.created_at, some now, err, rd⟩,
          ⟨p.process_id, p.uuid_str, p.email, status, p.created_at, some now, err, rd⟩) := by
    unfold InMemoryValidationProcessRepository.update_status
      InMemoryValidationProcessRepository.get_by_id
    rw [h]
  exact ⟨_, _, heq, rfl, rfl, rfl, rfl, rfl, rfl, rfl, rfl, lookup_setEntry_self st pid _,
    fun pid2 h2 => lookup_setEntry_ne st pid pid2 _ h2⟩

/-- Concrete instantiation of C10: updating a completed process to
failed without re-supplying the result payload clears it. -/
theorem c10_update_status_replaces_payload_witness :
    ∃ st2 q, InMemoryValidationProcessRepository.update_status
        [("p1", procCompletedW)] "p1" .failed (some "late failure") Option.none 9 = .ok (st2, q)
      ∧ q.process_id = procCompletedW.process_id ∧ q.uuid_str = procCompletedW.uuid_str
      ∧ q.email = procCompletedW.email ∧ q.created_at = procCompletedW.created_at
      ∧ q.status = .failed ∧ q.updated_at = some 9
      ∧ q.error_message = some "late failure" ∧ q.result_data = Option.none
      ∧ st2.lookup "p1" = some q
      ∧ ∀ pid2, pid2 ≠ "p1" → st2.lookup pid2 = [("p1", procCompletedW)].lookup pid2 :=
  c10_update_status_replaces_payload [("p1", procCompletedW)] "p1" .failed
    (some "late failure") Option.none 9 procCompletedW rfl

/-- The snapshot the first background update stores: the process marked
in progress with both payload fields cleared. -/
def inProgressOf (p : ValidationProcess) (t : Nat) : ValidationProcess :=
  ⟨p.process_id, p.uuid_str, p.email, .in_progress, p.created_at, some t,
    Option.none, Option.none⟩

/-- The snapshot stored by a failed transition of the background step. -/
def failedOf (p : ValidationProcess) (t : Nat) (msg : String) : ValidationProcess :=
  ⟨p.process_id, p.uuid_str, p.email, .failed, p.created_at, some t,
    some msg, Option.none⟩

/-- The snapshot stored by the completed transition of the background
step. -/
def completedOf (p : ValidationProcess) (t : Nat) (rd : List (String × PyVal)) :
    ValidationProcess :=
  ⟨p.process_id, p.uuid_str, p.email, .completed, p.created_at, some t,
    Option.none, some rd⟩

theorem perform_validation_not_found (st : RepoState) (pid : String)
    (enroll : String → Option EnrollmentDoc) (inj : Option String) (t1 t2 t3 tv : Nat)
    (h : st.lookup pid = Option.none) :
    perform_validation st pid enroll inj t1 t2 t3 tv = (st, some (.processNotFound pid)) := by
  have h1 : InMemoryValidationProcessRepository.update_status st pid .in_progress
      Option.none Option.none t1 = .error (.processNotFound pid) := by
    unfold InMemoryValidationProcessRepository.update_status
      InMemoryValidationProcessRepository.get_by_id
    rw [h]
  have h2 : InMemoryValidationProcessRepository.update_status st pid .failed
      (some (errMessage (.processNotFound pid))) Option.none t3 =
        .error (.processNotFound pid) := by
    unfold InMemoryValidationProcessRepository.update_status
      InMemoryValidationProcessRepository.get_by_id
    rw [h]
  simp only [perform_validation, h1, handleExcept, h2]

theorem inProgressOf_uuid_str (p : ValidationProcess) (t : Nat) :
    (inProgressOf p t).uuid_str = p.uuid_str := rfl

theorem perform_validation_found_eq (st : RepoState) (pid : String)
    (enroll : String → Option EnrollmentDoc) (inj : Option String) (t1 t2 t3 tv : Nat)
    (p : ValidationProcess) (hp : st.lookup pid = some p) :
    perform_validation st pid enroll inj t1 t2 t3 tv =
      (match truthyDoc (enroll p.uuid_str) with
       | Option.none =>
         (setEntry (setEntry st pid (inProgressOf p t1)) pid
            (failedOf p t2 "Enrollment not found during validation"), Option.none)
       | some ed =>
         match inj with
         | some m =>
           (setEntry (setEntry st pid (inProgressOf p t1)) pid (failedOf p t3 m), Option.none)
         | Option.none =>
           match assemble_result p.uuid_str ed tv with
           | .error e =>
             (setEntry (setEntry st pid (inProgressOf p t1)) pid
                (failedOf p t3 (errMessage e)), Option.none)
           | .ok rd =>
             (setEntry (setEntry st pid (inProgressOf p t1)) pid (completedOf p t2 rd),
               Option.none)) := by
  have h1 : InMemoryValidationProcessRepository.update_status st pid .in_progress
      Option.none Option.none t1 =
        .ok (setEntry st pid (inProgressOf p t1), inProgressOf p t1) := by
    unfold InMemoryValidationProcessRepository.update_status
      InMemoryValidationProcessRepository.get_by_id inProgressOf
    rw [hp]
  have hg : InMemoryValidationProcessRepository.get_by_id
      (setEntry st pid (inProgressOf p t1)) pid = some (inProgressOf p t1) := by
    unfold InMemoryValidationProcessRepository.get_by_id
    exact lookup_setEntry_self st pid _
  have h2 : ∀ (msg : String) (t : Nat),
      InMemoryValidationProcessRepository.update_status (setEntry st pid (inProgressOf p t1))
        pid .failed (some msg) Option.none t =
        .ok (setEntry (setEntry st pid (inProgressOf p t1)) pid (failedOf p t msg),
          failedOf p t msg) := by
    intro msg t
    unfold InMemoryValidationProcessRepository.update_status
      InMemoryValidationProcessRepository.get_by_id
    rw [lookup_setEntry_self]
    rfl
  have h3 : ∀ (rd : List (String × PyVal)) (t : Nat),
      InMemoryValidationProcessRepository.update_status (setEntry st pid (inProgressOf p t1))
        pid .completed Option.none (some rd) t =
        .ok (setEntry (setEntry st pid (inProgressOf p t1)) pid (completedOf p t rd),
          completedOf p t rd) := by
    intro rd t
    unfold InMemoryValidationProcessRepository.update_status
      InMemoryValidationProcessRepository.get_by_id
    rw [lookup_setEntry_self]
    rfl
  have h4 : ∀ e : PyErr, handleExcept (setEntry st pid (inProgressOf p t1)) pid e t3 =
      (setEntry (setEntry st pid (inProgressOf p t1)) pid (failedOf p t3 (errMessage e)),
        Option.none) := by
    intro e
    unfold handleExcept
    rw [h2]
  simp only [perform_validation, h1, hg, inProgressOf_uuid_str]
  cases htd : truthyDoc (enroll p.uuid_str) with
  | none => simp only [htd, h2]
  | some ed =>
    cases inj with
    | some m => simp only [htd, h4, errMessage]
    | none =>
      cases has : assemble_result p.uuid_str ed tv with
      | error e => simp only [htd, has, h4]
      | ok rd => simp only [htd, has, h3]

/-- Claim C2: whenever the process id is stored, the background step
terminates without an escaping exception and with the process status
set — completed with a result payload when the work succeeds, failed
with the fixed message when the enrollment is absent, and failed with
the exception message when any exception is raised during the work;
when the process id is unknown the step aborts with no state change
(the ProcessNotFound exception escapes into the fire-and-forget task,
observed by nobody). -/
theorem c2_background_step_always_sets_status (st : RepoState) (pid : String)
    (enroll : String → Option EnrollmentDoc) (inj : Option String) (t1 t2 t3 tv : Nat) :
    (st.lookup pid = Option.none →
        perform_validation st pid enroll inj t1 t2 t3 tv = (st, some (.processNotFound pid)))
    ∧ ∀ p, st.lookup pid = some p →
        (perform_validation st pid enroll inj t1 t2 t3 tv).2 = Option.none
        ∧ ∃ q, (perform_validation st pid enroll inj t1 t2 t3 tv).1.lookup pid = some q
          ∧ (truthyDoc (enroll p.uuid_str) = Option.none →
              q.status = .failed
              ∧ q.error_message = some "Enrollment not found during validation"
              ∧ q.result_data = Option.none)
          ∧ (∀ ed m, truthyDoc (enroll p.uuid_str) = some ed → inj = some m →
              q.status = .failed ∧ q.error_message = some m ∧ q.result_data = Option.none)
          ∧ (∀ ed e, truthyDoc (enroll p.uuid_str) = some ed → inj = Option.none →
              assemble_result p.uuid_str ed tv = .error e →
              q.status = .failed ∧ q.error_message = some (errMessage e)
              ∧ q.result_data = Option.none)
          ∧ ∀ ed rd, truthyDoc (enroll p.uuid_str) = some ed → inj = Option.none →
              assemble_result p.uuid_str ed tv = .ok rd →
              q.status = .completed ∧ q.result_data = some rd
              ∧ q.error_message = Option.none := by
  constructor
  · intro h
    exact perform_validation_not_found st pid enroll inj t1 t2 t3 tv h
  · intro p hp
    rw [perform_validation_found_eq st pid enroll inj t1 t2 t3 tv p hp]
    cases htd : truthyDoc (enroll p.uuid_str) with
    | none =>
      simp only [htd]
      refine ⟨trivial, _, lookup_setEntry_self _ pid _, ?_, ?_, ?_, ?_⟩
      · intro _
        exact ⟨rfl, rfl, rfl⟩
      · intro ed m h _
        exact Option.noConfusion h
      · intro ed e h _ _
        exact Option.noConfusion h
      · intro ed rd h _ _
        exact Option.noConfusion h
    | some ed =>
      cases inj with
      | some m =>
        simp only [htd]
        refine ⟨trivial, _, lookup_setEntry_self _ pid _, ?_, ?_, ?_, ?_⟩
        · intro h
          exact Option.noConfusion h
        · intro ed2 m2 h hm
          injection hm with hm2
          subst hm2
          exact ⟨rfl, rfl, rfl⟩
        · intro ed2 e h hm _
          exact Option.noConfusion hm
        · intro ed2 rd h hm _
          exact Option.noConfusion hm
      | none =>
        cases has : assemble_result p.uuid_str ed tv with
        | error e =>
          simp only [htd, has]
          refine ⟨trivial, _, lookup_setEntry_self _ pid _, ?_, ?_, ?_, ?_⟩
          · intro h
            exact Option.noConfusion h
          · intro ed2 m h hm
            exact Option.noConfusion hm
          · intro ed2 e2 h _ has2
            injection h with h2
            subst h2
            rw [has] at has2
            injection has2 with h3
            subst h3
            exact ⟨rfl, rfl, rfl⟩
          · intro ed2 rd h _ has2
            injection h with h2
            subst h2
            rw [has] at has2
            exact Except.noConfusion has2
        | ok rd =>
          simp only [htd, has]
          refine ⟨trivial, _, lookup_setEntry_self _ pid _, ?_, ?_, ?_, ?_⟩
          · intro h
            exact Option.noConfusion h
          · intro ed2 m h hm
            exact Option.noConfusion hm
          · intro ed2 e2 h _ has2
            injection h with h2
            subst h2
            rw [has] at has2
            exact Except.noConfusion has2
          · intro ed2 rd2 h _ has2
            injection h with h2
            subst h2
            rw [has] at has2
            injection has2 with h3
            subst h3
            exact ⟨rfl, rfl, rfl⟩

/-- A stored pending process used to instantiate the orchestrator
claims. -/
def procW : ValidationProcess :=
  ⟨"p1", "u1", some "e@x", .pending, 0, Option.none, Option.none, Option.none⟩

/-- A well-formed enrollment document for the witness scenarios. -/
def edW : EnrollmentDoc :=
  [("email", PyVal.str "a@b"), ("phone", PyVal.str "123"),
   ("students_info", PyVal.list []), ("verification", PyVal.dict [("verified", PyVal.bool true)])]

/-- Enrollment repository answering edW for every identifier. -/
def enrW : String → Option EnrollmentDoc := fun _ => some edW

/-- The result payload assemble_result produces from edW at tick 4. -/
def rdW : List (String × PyVal) :=
  [("enrollment_validated", PyVal.bool true), ("enrollment_uuid", PyVal.str "u1"),
   ("email", PyVal.str "a@b"), ("phone", PyVal.str "123"), ("students_count", PyVal.int 0),
   ("verification_status", PyVal.bool true), ("validation_timestamp", PyVal.str "4"),
   ("validation_notes", PyVal.str "Basic enrollment record validation completed")]

/-- Concrete instantiation of C2: the successful background run on a
stored pending process completes it with the assembled payload. -/
theorem c2_background_step_always_sets_status_witness :
    (perform_validation [("p1", procW)] "p1" enrW Option.none 1 2 3 4).2 = Option.none
    ∧ ∃ q, (perform_validation [("p1", procW)] "p1" enrW Option.none 1 2 3 4).1.lookup "p1" =
        some q
      ∧ q.status = .completed ∧ q.result_data = some rdW ∧ q.error_message = Option.none := by
  have h := (c2_background_step_always_sets_status [("p1", procW)] "p1" enrW Option.none
    1 2 3 4).2 procW rfl
  refine ⟨h.1, ?_⟩
  obtain ⟨q, hq, _, _, _, hD⟩ := h.2
  exact ⟨q, hq, hD edW rdW rfl rfl (by rfl)⟩

/-- The invariant of section 3 of the spec: a terminal process has
exactly one of error message and result payload set, a pending or
in-progress process has both unset. -/
def statusInvariant (p : ValidationProcess) : Prop :=
  match p.status with
  | .pending => p.error_message = Option.none ∧ p.result_data = Option.none
  | .in_progress => p.error_message = Option.none ∧ p.result_data = Option.none
  | .completed => p.error_message.isSome ≠ p.result_data.isSome
  | .failed => p.error_message.isSome ≠ p.result_data.isSome

/-- Claim C5: if every stored process satisfies the exactly-one-payload
invariant, it still does after the background execution step, and
also in the intermediate store right after the step's first (the
in-progress) transition. -/
theorem c5_terminal_payload_exclusivity (st : RepoState) (pid : String)
    (enroll : String → Option EnrollmentDoc) (inj : Option String) (t1 t2 t3 tv : Nat)
    (hinv : ∀ pid2 q, st.lookup pid2 = some q → statusInvariant q) :
    (∀ pid2 q, (perform_validation st pid enroll inj t1 t2 t3 tv).1.lookup pid2 = some q →
        statusInvariant q)
    ∧ ∀ r1, InMemoryValidationProcessRepository.update_status st pid .in_progress
        Option.none Option.none t1 = .ok r1 →
        ∀ pid2 q, r1.1.lookup pid2 = some q → statusInvariant q := by
  cases hst : st.lookup pid with
  | none =>
    constructor
    · rw [perform_validation_not_found st pid enroll inj t1 t2 t3 tv hst]
      exact fun pid2 q h => hinv pid2 q h
    · intro r1 h1
      have herr : InMemoryValidationProcessRepository.update_status st pid .in_progress
          Option.none Option.none t1 = .error (.processNotFound pid) := by
        unfold InMemoryValidationProcessRepository.update_status
          InMemoryValidationProcessRepository.get_by_id
        rw [hst]
      rw [herr] at h1
      exact Except.noConfusion h1
  | some p =>
    have key : ∀ x : ValidationProcess, statusInvariant x →
        ∀ pid2 q, (setEntry (setEntry st pid (inProgressOf p t1)) pid x).lookup pid2 = some q →
          statusInvariant q := by
      intro x hx pid2 q hq
      by_cases hpe : pid2 = pid
      · subst hpe
        rw [lookup_setEntry_self] at hq
        injection hq with h2
        subst h2
        exact hx
      · rw [lookup_setEntry_ne _ _ _ _ hpe, lookup_setEntry_ne _ _ _ _ hpe] at hq
        exact hinv pid2 q hq
    constructor
    · rw [perform_validation_found_eq st pid enroll inj t1 t2 t3 tv p hst]
      cases htd : truthyDoc (enroll p.uuid_str) with
      | none =>
        simp only [htd]
        exact key _ (by simp [statusInvariant, failedOf])
      | some ed =>
        cases inj with
        | some m =>
          simp only [htd]
          exact key _ (by simp [statusInvariant, failedOf])
        | none =>
          cases has : assemble_result p.uuid_str ed tv with
          | error e =>
            simp only [htd, has]
            exact key _ (by simp [statusInvariant, failedOf])
          | ok rd =>
            simp only [htd, has]
            exact key _ (by simp [statusInvariant, completedOf])
    · intro r1 h1
      have heq : InMemoryValidationProcessRepository.update_status st pid .in_progress
          Option.none Option.none t1 =
            .ok (setEntry st pid (inProgressOf p t1), inProgressOf p t1) := by
        unfold InMemoryValidationProcessRepository.update_status
          InMemoryValidationProcessRepository.get_by_id inProgressOf
        rw [hst]
      rw [heq] at h1
      injection h1 with h2
      subst h2
      intro pid2 q hq
      by_cases hpe : pid2 = pid
      · subst hpe
        rw [lookup_setEntry_self] at hq
        injection hq with h3
        subst h3
        exact ⟨rfl, rfl⟩
      · rw [lookup_setEntry_ne _ _ _ _ hpe] at hq
        exact hinv pid2 q hq

/-- Concrete instantiation of C5: the snapshot stored by a successful
background run satisfies the exactly-one-payload invariant. -/
theorem c5_terminal_payload_exclusivity_witness :
    statusInvariant ⟨"p1", "u1", some "e@x", .completed, 0, some 2, Option.none, some rdW⟩ := by
  have h := c5_terminal_payload_exclusivity [("p1", procW)] "p1" enrW Option.none 1 2 3 4 (by
    intro pid2 q hq
    by_cases hb : pid2 = "p1"
    · subst hb
      simp [List.lookup] at hq
      subst hq
      exact ⟨rfl, rfl⟩
    · have hbf : (pid2 == "p1") = false := by
        simp only [beq_eq_false_iff_ne]
        exact hb
      simp [List.lookup, hbf] at hq)
  exact h.1 "p1" _ (by rfl)

/-- Claim C4 counterexample: with a canonical value 1 (int) and an
extracted value True (bool) — structurally different values — the
comparator emits a match and no anomaly, because Python equality
identifies True with 1; so the non-string comparison is not strict
structural equality. -/
theorem c4_counterexample :
    (∃ r, compare_student_data (fun _ => some [("x", PyVal.int 1)]) "s1"
        [("x", PyVal.bool true)] = .success r
      ∧ r.matches_ = [("x", PyVal.int 1)] ∧ r.anomalies = [] ∧ r.total_anomalies = 0)
    ∧ PyVal.bool true ≠ PyVal.int 1 := by
  refine ⟨⟨_, rfl, rfl, rfl, rfl⟩, fun h => PyVal.noConfusion h⟩

/-- Claim C4 (amended): when the canonical record is absent the
comparator reports the not-found error; otherwise it classifies each
extracted key exactly as the spec prescribes — a key with a non-null
canonical value is compared (strings after stripping surrounding
whitespace and lower-casing both, any other pair by Python equality,
under which booleans also equal their numeric counterparts 1 and 0),
emitting a match entry when equal and an anomaly entry retaining both
original values when unequal, and a key with a null or absent
canonical value goes to additional-info; the anomaly count is the
number of anomalies. -/
theorem c4_comparator_amended :
    (∀ (getf : String → Option (List (String × PyVal))) (sid : String)
        (extracted : List (String × PyVal)), getf sid = Option.none →
        compare_student_data getf sid extracted =
          .error ("Student ID " ++ sid ++ " not found in MongoDB"))
    ∧ ∀ (getf : String → Option (List (String × PyVal))) (sid : String)
        (extracted record : List (String × PyVal)), getf sid = some record →
        compare_student_data getf sid extracted =
          .success ⟨record, extracted, specMatches record extracted,
            specAnomalies record extracted, specAdditionalInfo record extracted,
            (specAnomalies record extracted).length⟩ := by
  constructor
  · intro getf sid extracted h
    simp [compare_student_data, h]
  · intro getf sid extracted record h
    simp [compare_student_data, h, classifyFields_eq_spec]

/-- Concrete instantiation of the amended C4 theorem on the example of
section 8 of the spec: canonical "Jane Doe" and extracted "jane doe"
produce one match and no anomaly. -/
theorem c4_comparator_amended_witness :
    compare_student_data (fun _ => some [("name", PyVal.str "Jane Doe")]) "s1"
        [("name", PyVal.str "jane doe")] =
      .success ⟨[("name", PyVal.str "Jane Doe")], [("name", PyVal.str "jane doe")],
        [("name", PyVal.str "Jane Doe")], [], [], 0⟩ := by
  have h := c4_comparator_amended.2 (fun _ => some [("name", PyVal.str "Jane Doe")]) "s1"
    [("name", PyVal.str "jane doe")] [("name", PyVal.str "Jane Doe")] rfl
  rw [h]
  rfl

/-! ## Backend interchangeability (claim C9) -/

theorem lookup_append_of_absent {α : Type} (l1 l2 : List (String × α)) (k : String)
    (h : l1.lookup k = Option.none) : (l1 ++ l2).lookup k = l2.lookup k := by
  induction l1 with
  | nil => simp
  | cons kv rest ih =>
    obtain ⟨k0, v0⟩ := kv
    by_cases hb : k = k0
    · subst hb
      simp [List.lookup] at h
    · have hbf : (k == k0) = false := by
        simp only [beq_eq_false_iff_ne]
        exact hb
      simp only [List.lookup, hbf, List.cons_append] at h ⊢
      exact ih h

theorem lookup_append_of_found {α : Type} (l1 l2 : List (String × α)) (k : String) (x : α)
    (h : l1.lookup k = some x) : (l1 ++ l2).lookup k = some x := by
  induction l1 with
  | nil => simp [List.lookup] at h
  | cons kv rest ih =>
    obtain ⟨k0, v0⟩ := kv
    by_cases hb : k = k0
    · subst hb
      simp [List.lookup] at h ⊢
      exact h
    · have hbf : (k == k0) = false := by
        simp only [beq_eq_false_iff_ne]
        exact hb
      simp only [List.lookup, hbf, List.cons_append] at h ⊢
      exact ih h

theorem setEntry_of_absent {α : Type} (st : List (String × α)) (k : String) (v : α)
    (h : st.lookup k = Option.none) : setEntry st k v = st ++ [(k, v)] := by
  induction st with
  | nil => rfl
  | cons kv rest ih =>
    obtain ⟨k0, v0⟩ := kv
    by_cases hb : k = k0
    · subst hb
      simp [List.lookup] at h
    · have hbf : (k == k0) = false := by
        simp only [beq_eq_false_iff_ne]
        exact hb
      simp only [List.lookup, hbf] at h
      have hb0 : ¬ k0 = k := fun hh => hb hh.symm
      simp only [setEntry, if_neg hb0, List.cons_append]
      rw [ih h]

/-- A stored Mongo document represents exactly this process snapshot. -/
def docEquiv (p : ValidationProcess) (d : MongoProcDoc) : Prop :=
  d.process_id = p.process_id ∧ d.uuid_str = p.uuid_str ∧ d.email = p.email ∧
  statusOfString d.status = some p.status ∧ d.created_at = p.created_at ∧
  d.updated_at = p.updated_at ∧ d.error_message = p.error_message ∧
  d.result_data = p.result_data

/-- The in-memory store and the Mongo collection hold the same
processes under every id. -/
def stateEquiv (m : RepoState) (g : MongoState) : Prop :=
  ∀ pid : String, (m.lookup pid = Option.none ∧ g.lookup pid = Option.none) ∨
    ∃ p d, m.lookup pid = some p ∧ g.lookup pid = some d ∧ docEquiv p d

theorem docToProcess_of_equiv (p : ValidationProcess) (d : MongoProcDoc)
    (h : docEquiv p d) : docToProcess d = some p := by
  obtain ⟨e1, e2, e3, e4, e5, e6, e7, e8⟩ := h
  unfold docToProcess
  rw [e4]
  simp only [Option.map_some']
  rw [e1, e2, e3, e5, e6, e7, e8]

/-- Claim C9 (amended): with the durable collection modelled as a
key-value map, the two process-repository backends agree on create
(fresh id) and getById, and on updateStatus under the proviso that an
omitted errorMessage or resultPayload argument is only omitted when
the corresponding stored field is still unset; without that proviso
the backends diverge, because an omitted argument clears the field in
the in-memory backend but leaves the previously stored value in place
in the durable backend. -/
theorem c9_backends_amended :
    (∀ (m : RepoState) (g : MongoState) (uuid_str : String) (email : Option String)
        (pid : String) (now : Nat), stateEquiv m g → m.lookup pid = Option.none →
        (InMemoryValidationProcessRepository.create m uuid_str email pid now).2 =
          (MongoValidationProcessRepository.create g uuid_str email pid now).2
        ∧ stateEquiv (InMemoryValidationProcessRepository.create m uuid_str email pid now).1
            (MongoValidationProcessRepository.create g uuid_str email pid now).1)
    ∧ (∀ (m : RepoState) (g : MongoState) (pid : String), stateEquiv m g →
        InMemoryValidationProcessRepository.get_by_id m pid =
          MongoValidationProcessRepository.get_by_id g pid)
    ∧ ∀ (m : RepoState) (g : MongoState) (pid : String) (status : ValidationStatus)
        (err : Option String) (rd : Option (List (String × PyVal))) (now : Nat),
        stateEquiv m g →
        (err = Option.none → ∀ p, m.lookup pid = some p → p.error_message = Option.none) →
        (rd = Option.none → ∀ p, m.lookup pid = some p → p.result_data = Option.none) →
        (InMemoryValidationProcessRepository.update_status m pid status err rd now =
            .error (.processNotFound pid)
          ∧ MongoValidationProcessRepository.update_status g pid status err rd now =
            .error (.processNotFound pid))
        ∨ ∃ m2 g2 q,
            InMemoryValidationProcessRepository.update_status m pid status err rd now =
              .ok (m2, q)
            ∧ MongoValidationProcessRepository.update_status g pid status err rd now =
              .ok (g2, q)
            ∧ stateEquiv m2 g2 := by
  refine ⟨?_, ?_, ?_⟩
  · intro m g uuid_str email pid now hse habs
    have hgabs : g.lookup pid = Option.none := by
      rcases hse pid with ⟨_, h2⟩ | ⟨p, d, h1, _, _⟩
      · exact h2
      · rw [habs] at h1
        exact Option.noConfusion h1
    have hmc : InMemoryValidationProcessRepository.create m uuid_str email pid now =
        (setEntry m pid ⟨pid, uuid_str, email, .pending, now, Option.none, Option.none,
            Option.none⟩,
         ⟨pid, uuid_str, email, .pending, now, Option.none, Option.none, Option.none⟩) := rfl
    have hgc : MongoValidationProcessRepository.create g uuid_str email pid now =
        (g ++ [(pid, ⟨pid, uuid_str, email, "pending", now, Option.none, Option.none,
            Option.none⟩)],
         ⟨pid, uuid_str, email, .pending, now, Option.none, Option.none, Option.none⟩) := rfl
    rw [hmc, hgc]
    refine ⟨rfl, ?_⟩
    intro pid2
    by_cases hpe : pid2 = pid
    · subst hpe
      right
      refine ⟨⟨pid2, uuid_str, email, .pending, now, Option.none, Option.none, Option.none⟩,
        ⟨pid2, uuid_str, email, "pending", now, Option.none, Option.none, Option.none⟩,
        lookup_setEntry_self m pid2 _, ?_, ?_⟩
      · rw [lookup_append_of_absent _ _ _ hgabs]
        simp [List.lookup]
      · exact ⟨rfl, rfl, rfl, rfl, rfl, rfl, rfl, rfl⟩
    · rcases hse pid2 with ⟨h1, h2⟩ | ⟨p, d, h1, h2, hdq⟩
      · left
        constructor
        · rw [lookup_setEntry_ne m pid pid2 _ hpe]
          exact h1
        · rw [lookup_append_of_absent _ _ _ h2]
          have hbf : (pid2 == pid) = false := by
            simp only [beq_eq_false_iff_ne]
            exact hpe
          simp [List.lookup, hbf]
      · right
        refine ⟨p, d, ?_, lookup_append_of_found _ _ _ _ h2, hdq⟩
        rw [lookup_setEntry_ne m pid pid2 _ hpe]
        exact h1
  · intro m g pid hse
    rcases hse pid with ⟨h1, h2⟩ | ⟨p, d, h1, h2, hdq⟩
    · unfold InMemoryValidationProcessRepository.get_by_id
        MongoValidationProcessRepository.get_by_id
      rw [h1, h2]
      rfl
    · unfold InMemoryValidationProcessRepository.get_by_id
        MongoValidationProcessRepository.get_by_id
      rw [h1, h2]
      simp only [Option.some_bind]
      exact (docToProcess_of_equiv p d hdq).symm
  · intro m g pid status err rd now hse herr hrd
    rcases hse pid with ⟨h1, h2⟩ | ⟨p, d, h1, h2, hdq⟩
    · left
      constructor
      · unfold InMemoryValidationProcessRepository.update_status
          InMemoryValidationProcessRepository.get_by_id
        rw [h1]
      · unfold MongoValidationProcessRepository.update_status
        rw [h2]
    · right
      obtain ⟨e1, e2, e3, e4, e5, e6, e7, e8⟩ := hdq
      have herrN : keepIfNone err d.error_message = err := by
        cases err with
        | some m2 => rfl
        | none =>
          show d.error_message = Option.none
          rw [e7]
          exact herr rfl p h1
      have hrdN : keepIfNone rd d.result_data = rd := by
        cases rd with
        | some r => rfl
        | none =>
          show d.result_data = Option.none
          rw [e8]
          exact hrd rfl p h1
      have heqm : InMemoryValidationProcessRepository.update_status m pid status err rd now =
          .ok (setEntry m pid
                ⟨p.process_id, p.uuid_str, p.email, status, p.created_at, some now, err, rd⟩,
              ⟨p.process_id, p.uuid_str, p.email, status, p.created_at, some now, err, rd⟩) := by
        unfold InMemoryValidationProcessRepository.update_status
          InMemoryValidationProcessRepository.get_by_id
        rw [h1]
      have heqg : MongoValidationProcessRepository.update_status g pid status err rd now =
          .ok (setEntry g pid
                ⟨d.process_id, d.uuid_str, d.email, status.value, d.created_at, some now,
                  keepIfNone err d.error_message, keepIfNone rd d.result_data⟩,
              ⟨d.process_id, d.uuid_str, d.email, status, d.created_at, some now,
                  keepIfNone err d.error_message, keepIfNone rd d.result_data⟩) := by
        unfold MongoValidationProcessRepository.update_status
        rw [h2]
        simp [docToProcess, statusOfString_value]
      rw [herrN, hrdN, e1, e2, e3, e5] at heqg
      refine ⟨_, _, _, heqm, heqg, ?_⟩
      intro pid2
      by_cases hpe : pid2 = pid
      · subst hpe
        right
        refine ⟨_, _, lookup_setEntry_self m pid2 _, lookup_setEntry_self g pid2 _, ?_⟩
        exact ⟨rfl, rfl, rfl, statusOfString_value status, rfl, rfl, rfl, rfl⟩
      · rw [lookup_setEntry_ne m pid pid2 _ hpe, lookup_setEntry_ne g pid pid2 _ hpe]
        exact hse pid2

/-- Concrete instantiation of the amended C9 theorem: creating the same
fresh process in both (empty) backends returns the same process and
leaves the stores equivalent. -/
theorem c9_backends_amended_witness :
    (InMemoryValidationProcessRepository.create [] "u1" Option.none "p1" 0).2 =
      (MongoValidationProcessRepository.create [] "u1" Option.none "p1" 0).2
    ∧ stateEquiv (InMemoryValidationProcessRepository.create [] "u1" Option.none "p1" 0).1
        (MongoValidationProcessRepository.create [] "u1" Option.none "p1" 0).1 :=
  c9_backends_amended.1 [] [] "u1" Option.none "p1" 0 (fun _ => Or.inl ⟨rfl, rfl⟩) rfl

/-- The three-call sequence create, update to failed with an error
message, update to completed with a result payload, run against the
in-memory backend. -/
def memSeqW : Except PyErr (RepoState × ValidationProcess) :=
  match InMemoryValidationProcessRepository.update_status
      (InMemoryValidationProcessRepository.create [] "u1" Option.none "p1" 0).1
      "p1" .failed (some "boom") Option.none 1 with
  | .error e => .error e
  | .ok r2 => InMemoryValidationProcessRepository.update_status r2.1 "p1" .completed
      Option.none (some []) 2

/-- The same three-call sequence run against the Mongo backend. -/
def mongoSeqW : Except PyErr (MongoState × ValidationProcess) :=
  match MongoValidationProcessRepository.update_status
      (MongoValidationProcessRepository.create [] "u1" Option.none "p1" 0).1
      "p1" .failed (some "boom") Option.none 1 with
  | .error e => .error e
  | .ok r2 => MongoValidationProcessRepository.update_status r2.1 "p1" .completed
      Option.none (some []) 2

/-- Claim C9 counterexample: the identical call sequence create, update
to failed with message "boom", update to completed without an error
message argument ends with error_message cleared in the in-memory
backend but still "boom" in the durable backend — the stored snapshots
and returned processes differ, so the backends are not
interchangeable as claimed. -/
theorem c9_counterexample :
    (∃ st q, memSeqW = .ok (st, q) ∧ q.status = .completed ∧ q.error_message = Option.none)
    ∧ ∃ st q, mongoSeqW = .ok (st, q) ∧ q.status = .completed
        ∧ q.error_message = some "boom" :=
  ⟨⟨_, _, rfl, rfl, rfl⟩, ⟨_, _, rfl, rfl, rfl⟩⟩
